import Mathlib

/-!
Verification of the MaintainX webhook automation core: a shallow embedding of
the due-date calculator (calculateDueDate), the webhook signature verifier
(verifyWebhookSignature) and the event processor (processWebhookEvent, which
exists in the repository in two variants). JavaScript numbers are modelled as
Nat or Int (all relevant values are integral), JavaScript strings as String,
thrown exceptions as the error case of Except, and console output as an
explicit list of log entries. The external HMAC-SHA256 routine of the node
crypto library is an abstract parameter; the node timingSafeEqual primitive,
which throws a RangeError when its two buffers differ in byte length and
otherwise compares them, is modelled explicitly inside the verifier.
-/

namespace MaintainX

/-- Severity of a console log entry: console.log, console.warn, console.error. -/
inductive LogLevel where
  | info
  | warn
  | error
deriving DecidableEq

/-- One console output line, as level plus rendered message text. -/
structure LogEntry where
  level : LogLevel
  msg : String
deriving DecidableEq

/-- JavaScript truthiness test for a value of type string or null or undefined:
falsy exactly when absent or the empty string. -/
def jsFalsyOpt (o : Option String) : Bool :=
  match o with
  | none => true
  | some s => s == ""

/-- JavaScript expression v or-else d for a string option v: the default is
taken when v is absent or empty, mirroring the || operator on strings. -/
def jsOr (o : Option String) (d : String) : String :=
  match o with
  | none => d
  | some s => if s = "" then d else s

/-- Substring containment fact: v occurs contiguously inside msg. Used to state
that a log message contains a given value. -/
def containsVal (msg v : String) : Prop := ∃ a b, msg = a ++ v ++ b

/-- Model of the JavaScript single-character string split: splits the character
list at every occurrence of c, keeping empty segments, never returning an empty
list of segments. -/
def splitOnChar (c : Char) : List Char → List (List Char)
  | [] => [[]]
  | x :: xs =>
    if x = c then [] :: splitOnChar c xs
    else
      let r := splitOnChar c xs
      (x :: r.headD []) :: r.tail

/-- JavaScript s.split(c) for a one-character separator c. -/
def jsSplitChar (s : String) (c : Char) : List String :=
  (splitOnChar c s.toList).map String.mk

/-- Character set skipped by parseInt before reading digits, an abstraction of
the JavaScript whitespace and line terminator classes. -/
def isJsSpace (c : Char) : Bool :=
  c == ' ' || c == '\t' || c == '\n' || c == '\r' || c.toNat == 11 || c.toNat == 12

/-- Numeric value of a list of decimal digit characters. -/
def digitsVal (cs : List Char) : Nat :=
  cs.foldl (fun a c => a * 10 + (c.toNat - 48)) 0

/-- Model of JavaScript parseInt(s, 10): skip leading whitespace, read an
optional sign, then the maximal run of decimal digits; none models NaN, which
arises when no digit is found. -/
def jsParseInt10 (s : String) : Option Int :=
  let cs := s.toList.dropWhile isJsSpace
  let signed : Int × List Char :=
    match cs with
    | '-' :: r => (-1, r)
    | '+' :: r => (1, r)
    | r => (1, r)
  let ds := signed.2.takeWhile Char.isDigit
  if ds.isEmpty then none else some (signed.1 * (digitsVal ds : Int))

/-! ## Gregorian calendar model underlying Date.prototype.toISOString

The UTC calendar conversion of the JavaScript Date object is modelled with the
standard days-from-civil / civil-from-days algorithm over 400-year eras
(the algorithm published by Howard Hinnant, used by mainstream date
libraries): a day count since the epoch 1970-01-01 is shifted to era day
numbers based at 0000-03-01 and decomposed into era, year of era, day of
year and month. -/

/-- Leap-corrected day count entering the year-of-era division. -/
def yoeNum (n : Nat) : Nat := n - n / 1460 + n / 36524 - n / 146096

/-- Year of era (0 to 399) computed from a day of era (0 to 146096). -/
def yoeOf (n : Nat) : Nat := yoeNum n / 365

/-- First day of era-year y inside a 400-year era (March-based years). -/
def eraYearStart (y : Nat) : Nat := 365 * y + y / 4 - y / 100 + y / 400

/-- Era index of a day count since the UNIX epoch. -/
def eraOf (days : Nat) : Nat := (days + 719468) / 146097

/-- Day of era of a day count since the UNIX epoch. -/
def doeOf (days : Nat) : Nat := days + 719468 - eraOf days * 146097

/-- Day of the (March-based) year of a day count since the UNIX epoch. -/
def doyOf (days : Nat) : Nat :=
  doeOf days - (365 * yoeOf (doeOf days) + yoeOf (doeOf days) / 4 - yoeOf (doeOf days) / 100)

/-- March-based month index (0 to 11) of a day count since the UNIX epoch. -/
def mpOf (days : Nat) : Nat := (5 * doyOf days + 2) / 153

/-- Civil Gregorian date (year, month, day) of a day count since the UNIX
epoch, in UTC. -/
def civilFromDays (days : Nat) : Nat × Nat × Nat :=
  let mp := mpOf days
  let m := if mp < 10 then mp + 3 else mp - 9
  let d := doyOf days - (153 * mp + 2) / 5 + 1
  let y := eraOf days * 400 + yoeOf (doeOf days) + (if m ≤ 2 then 1 else 0)
  (y, m, d)

/-- Decimal digit character for n modulo 10. -/
def decChar (n : Nat) : Char := Char.ofNat (48 + n % 10)

/-- Two-digit zero-padded decimal rendering (of n modulo 100). -/
def pad2 (n : Nat) : List Char := [decChar (n / 10), decChar n]

/-- Three-digit zero-padded decimal rendering (of n modulo 1000). -/
def pad3 (n : Nat) : List Char := [decChar (n / 100), decChar (n / 10), decChar n]

/-- Four-digit zero-padded decimal rendering (of n modulo 10000). -/
def pad4 (n : Nat) : List Char := [decChar (n / 1000), decChar (n / 100), decChar (n / 10), decChar n]

/-- Character list of the ISO-8601 UTC rendering of a nonnegative millisecond
timestamp, in the shape YYYY-MM-DDTHH:MM:SS.mmmZ produced by the JavaScript
toISOString method for years 0 to 9999. -/
def toISOChars (t : Nat) : List Char :=
  let msOfDay := t % 86400000
  let c := civilFromDays (t / 86400000)
  pad4 c.1 ++ '-' :: pad2 c.2.1 ++ '-' :: pad2 c.2.2 ++ 'T' ::
    pad2 (msOfDay / 3600000) ++ ':' :: pad2 (msOfDay % 3600000 / 60000) ++ ':' ::
    pad2 (msOfDay % 60000 / 1000) ++ '.' :: pad3 (msOfDay % 1000) ++ ['Z']

/-- ISO-8601 UTC rendering of a nonnegative millisecond timestamp. -/
def toISOString (t : Nat) : String := String.mk (toISOChars t)

/-- Numeric value of a decimal digit character. -/
def digitVal (c : Char) : Nat := c.toNat - 48

/-- Numeric value of a two-digit group. -/
def twoVal (a b : Char) : Nat := 10 * digitVal a + digitVal b

/-- Structural validity check for an ISO-8601 UTC timestamp string with
millisecond precision: exact 24-character shape YYYY-MM-DDTHH:MM:SS.mmmZ,
decimal digits in every numeric position, month between 1 and 12, day between
1 and 31, hour at most 23, minute and second at most 59. -/
def isValidIsoChars : List Char → Bool
  | [y1, y2, y3, y4, a1, m1, m2, a2, d1, d2, a3, h1, h2, a4, n1, n2, a5, s1, s2, a6, p1, p2, p3, a7] =>
    a1 == '-' && a2 == '-' && a3 == 'T' && a4 == ':' && a5 == ':' && a6 == '.' && a7 == 'Z' &&
    [y1, y2, y3, y4, m1, m2, d1, d2, h1, h2, n1, n2, s1, s2, p1, p2, p3].all Char.isDigit &&
    decide (1 ≤ twoVal m1 m2) && decide (twoVal m1 m2 ≤ 12) &&
    decide (1 ≤ twoVal d1 d2) && decide (twoVal d1 d2 ≤ 31) &&
    decide (twoVal h1 h2 ≤ 23) && decide (twoVal n1 n2 ≤ 59) && decide (twoVal s1 s2 ≤ 59)
  | _ => false

/-- Structural validity of an ISO-8601 UTC timestamp string. -/
def isValidIso (s : String) : Bool := isValidIsoChars s.toList

/-! ## calculateDueDate (src/utils.ts)

The source switches on the priority tag to pick a whole-day offset, warning on
the default branch, then adds that many days to the current instant with
setDate and renders the result with toISOString. The clock is passed in
explicitly as nowMs, the current instant in milliseconds since the UNIX epoch
(UTC); adding daysToAdd to the day-of-month and renormalizing equals adding
daysToAdd times 86400000 milliseconds on the UTC timeline. -/

/-- Text interpolated for the priority value in the warning message; an absent
value prints as undefined in a JavaScript template literal. -/
def priorityText (p : Option String) : String :=
  match p with
  | some s => s
  | none => "undefined"

/-- Warning message of the default branch of calculateDueDate. -/
def unknownPriorityMsg (p : Option String) : String :=
  "[calculateDueDate] Unknown or undefined priority: \"" ++ priorityText p ++
    "\". Defaulting to 7 days."

/-- Switch of calculateDueDate: the day offset chosen for a priority value,
together with the console output the branch emits. -/
def daysToAddFor (p : Option String) : Nat × List LogEntry :=
  match p with
  | some "HIGH" => (1, [])
  | some "MEDIUM" => (3, [])
  | some "LOW" => (7, [])
  | some "NONE" => (14, [])
  | _ => (7, [⟨LogLevel.warn, unknownPriorityMsg p⟩])

/-- Instant (milliseconds since epoch) of the due date computed by
calculateDueDate from the current instant and the priority. -/
def calculateDueDateMs (nowMs : Nat) (p : Option String) : Nat :=
  nowMs + (daysToAddFor p).1 * 86400000

/-- Model of calculateDueDate: the returned string-or-null value paired with
the console output of the call. -/
def calculateDueDate (nowMs : Nat) (p : Option String) : Option String × List LogEntry :=
  (some (toISOString (calculateDueDateMs nowMs p)), (daysToAddFor p).2)

/-! ## Calendar bound lemmas -/

theorem yoeNum_step (n : Nat) : yoeNum n ≤ yoeNum (n + 1) := by
  unfold yoeNum
  omega

theorem yoeNum_mono {a b : Nat} (hab : a ≤ b) : yoeNum a ≤ yoeNum b := by
  induction b with
  | zero => simp [Nat.le_zero.mp hab]
  | succ b ih =>
    rcases Nat.lt_or_ge a (b + 1) with h | h
    · exact le_trans (ih (by omega)) (yoeNum_step b)
    · have : a = b + 1 := by omega
      simp [this]

theorem yoeOf_mono {a b : Nat} (hab : a ≤ b) : yoeOf a ≤ yoeOf b :=
  Nat.div_le_div_right (yoeNum_mono hab)

/-- Per-year boundary test: the year-of-era division formula answers y on the
first and last day of era-year y, and era-years span at most 366 days. -/
def boundaryTest (y : Nat) : Bool :=
  (yoeOf (eraYearStart y) == y) && (yoeOf (eraYearStart (y + 1) - 1) == y) &&
  (eraYearStart (y + 1) - eraYearStart y ≤ 366)

set_option maxHeartbeats 4000000 in
set_option maxRecDepth 4000 in
theorem boundary_check : ∀ y, y < 400 → boundaryTest y = true := by decide

theorem boundaryTest_elim {y : Nat} (h : y < 400) :
    yoeOf (eraYearStart y) = y ∧ yoeOf (eraYearStart (y + 1) - 1) = y ∧
    eraYearStart (y + 1) - eraYearStart y ≤ 366 := by
  have := boundary_check y h
  unfold boundaryTest at this
  simp only [Bool.and_eq_true, beq_iff_eq, decide_eq_true_eq] at this
  exact ⟨this.1.1, this.1.2, this.2⟩

theorem yoe_le_399 {doe : Nat} (h : doe ≤ 146096) : yoeOf doe ≤ 399 := by
  have h1 : yoeOf doe ≤ yoeOf 146096 := yoeOf_mono h
  have h2 : yoeOf 146096 = 399 := by decide
  omega

/-- The era-year computed by the division formula indeed brackets the day. -/
theorem yoe_bracket {doe : Nat} (h : doe ≤ 146096) :
    eraYearStart (yoeOf doe) ≤ doe ∧ doe < eraYearStart (yoeOf doe + 1) := by
  set y := yoeOf doe with hy
  have hy399 : y ≤ 399 := yoe_le_399 h
  constructor
  · by_contra hcon
    push_neg at hcon
    rcases Nat.eq_zero_or_pos y with h0 | hpos
    · simp [h0, eraYearStart] at hcon
    · have hle : doe ≤ eraYearStart y - 1 := by omega
      have hmono := yoeOf_mono hle
      have hb := (boundaryTest_elim (show y - 1 < 400 by omega)).2.1
      have heq : y - 1 + 1 = y := by omega
      rw [heq] at hb
      omega
  · by_contra hcon
    push_neg at hcon
    have hmono := yoeOf_mono hcon
    rcases Nat.lt_or_ge (y + 1) 400 with hcase | hcase
    · have hb := (boundaryTest_elim hcase).1
      omega
    · have h399 : y = 399 := by omega
      have hval : eraYearStart (y + 1) = 146097 := by rw [h399]; decide
      omega

theorem doeOf_le (days : Nat) : doeOf days ≤ 146096 := by
  unfold doeOf eraOf
  omega

theorem doyOf_le (days : Nat) : doyOf days ≤ 365 := by
  unfold doyOf
  have h := doeOf_le days
  have hbr := yoe_bracket h
  have hy := yoe_le_399 h
  have hlen := (boundaryTest_elim (show yoeOf (doeOf days) < 400 by omega)).2.2
  unfold eraYearStart at hbr hlen
  omega

theorem civil_month_day_bounds (days : Nat) :
    1 ≤ (civilFromDays days).2.1 ∧ (civilFromDays days).2.1 ≤ 12 ∧
    1 ≤ (civilFromDays days).2.2 ∧ (civilFromDays days).2.2 ≤ 31 := by
  have hdoy := doyOf_le days
  unfold civilFromDays mpOf
  dsimp only
  split <;> omega

theorem civil_year_le {days : Nat} (h : days ≤ 2932896) : (civilFromDays days).1 ≤ 9999 := by
  have hdoe := doeOf_le days
  have hyoe := yoe_le_399 hdoe
  have hera : eraOf days ≤ 24 := by unfold eraOf; omega
  rcases Nat.lt_or_ge (eraOf days) 24 with hc | hc
  · unfold civilFromDays
    dsimp only
    split <;> split <;> omega
  · have hera24 : eraOf days = 24 := by omega
    have hdoe24 : doeOf days ≤ 146036 := by
      unfold doeOf
      rw [hera24]
      unfold eraOf at hera24
      omega
    rcases Nat.lt_or_ge (yoeOf (doeOf days)) 399 with hy | hy
    · unfold civilFromDays
      dsimp only
      rw [hera24]
      split <;> split <;> omega
    · have hy399 : yoeOf (doeOf days) = 399 := by omega
      have hbr := (yoe_bracket hdoe).1
      rw [hy399] at hbr
      have hstart : eraYearStart 399 = 145731 := by decide
      rw [hstart] at hbr
      have hdoy : doyOf days ≤ 305 := by
        unfold doyOf
        rw [hy399]
        omega
      have hmp : mpOf days ≤ 9 := by
        unfold mpOf
        omega
      unfold civilFromDays
      dsimp only
      rw [hera24, hy399]
      split <;> split <;> omega

/-! ## Digit rendering lemmas -/

theorem toNat_decChar (n : Nat) : (decChar n).toNat = 48 + n % 10 := by
  unfold decChar
  have h : n % 10 < 10 := Nat.mod_lt _ (by omega)
  set k := n % 10 with hk
  interval_cases k <;> rfl

theorem isDigit_decChar (n : Nat) : (decChar n).isDigit = true := by
  unfold decChar
  have h : n % 10 < 10 := Nat.mod_lt _ (by omega)
  set k := n % 10 with hk
  interval_cases k <;> rfl

theorem twoVal_decChar (n : Nat) : twoVal (decChar (n / 10)) (decChar n) = n % 100 := by
  unfold twoVal digitVal
  rw [toNat_decChar, toNat_decChar]
  omega

theorem isValidIso_mk (l : List Char) : isValidIso (String.mk l) = isValidIsoChars l := rfl

/-- Structural ISO-8601 validity of the rendering of any instant up to the
end of year 9999. -/
theorem isValidIso_toISOString {t : Nat} (ht : t ≤ 253402300799999) :
    isValidIso (toISOString t) = true := by
  have hmd := civil_month_day_bounds (t / 86400000)
  have hy : (civilFromDays (t / 86400000)).1 ≤ 9999 := civil_year_le (by omega)
  unfold toISOString toISOChars pad4 pad3 pad2
  rw [isValidIso_mk]
  simp only [List.cons_append, List.nil_append]
  simp only [isValidIsoChars]
  simp only [Bool.and_eq_true, beq_self_eq_true, List.all_cons, List.all_nil,
    isDigit_decChar, Bool.and_self, decide_eq_true_eq, twoVal_decChar, true_and, and_true]
  omega

/-! ## verifyWebhookSignature (src/utils.ts, full implementation)

The source splits the header at commas, takes element 1 of the equals-sign
split of segment 0 as the timestamp and of segment 1 as the digest, rejects
falsy components, computes the expected hex HMAC-SHA256 digest of
timestamp dot body, compares the two digest strings with the node
timingSafeEqual primitive on their UTF-8 byte buffers, checks freshness with
parseInt and a strict window comparison, and returns the conjunction.
The timingSafeEqual call raises a RangeError when the two buffers differ in
byte length; the verifier has no surrounding try/catch, so that exception
escapes, modelled as the error case of Except. Console error output of the
verifier is not modelled; the returned or thrown value is. -/

/-- Message of the RangeError raised by the node timingSafeEqual primitive on
buffers of unequal byte length. -/
def bufferLengthErrMsg : String := "Input buffers must have the same byte length"

/-- Value extracted from one signature header segment: null when the segment
is absent or empty, otherwise element 1 of its equals-sign split (which is
absent when the segment contains no equals sign). -/
def segValue (seg : Option String) : Option String :=
  match seg with
  | none => none
  | some p => if p = "" then none else (jsSplitChar p '=')[1]?

/-- Positional parse of the signature header performed by
verifyWebhookSignature: split at commas, read the value of segment 0 as the
timestamp and the value of segment 1 as the digest, failing when either is
absent or empty (the JavaScript falsiness test on both components). -/
def parseSignatureHeader (hdr : String) : Option (String × String) :=
  let parts := jsSplitChar hdr ','
  match segValue parts[0]?, segValue parts[1]? with
  | some ts, some sg => if ts = "" ∨ sg = "" then none else some (ts, sg)
  | some _, none => none
  | none, _ => none

/-- Freshness check of verifyWebhookSignature: parse the timestamp text with
parseInt base 10, scale seconds to milliseconds, and compare the age against
the tolerance window with a strict inequality; a NaN timestamp makes the
comparison false. -/
def freshCheck (nowMs : Int) (ts : String) (toleranceMinutes : Int) : Bool :=
  match jsParseInt10 ts with
  | none => false
  | some t => decide (nowMs - t * 1000 < toleranceMinutes * 60 * 1000)

/-- Model of verifyWebhookSignature. The external HMAC-SHA256 hex digest
routine of the node crypto library is the parameter hmac, applied to the
secret and the signed payload. With digest buffers of equal byte length the
timingSafeEqual comparison coincides with string equality (UTF-8 encoding is
injective); with unequal lengths it raises, which no handler catches. -/
def verifyWebhookSignature (hmac : String → String → String) (nowMs : Int)
    (signatureHeader : Option String) (rawBody : Option String)
    (secret : String) (toleranceMinutes : Int) : Except String Bool :=
  match signatureHeader with
  | none => Except.ok false
  | some hdr =>
    if hdr = "" then Except.ok false
    else
      match rawBody with
      | none => Except.ok false
      | some body =>
        match parseSignatureHeader hdr with
        | none => Except.ok false
        | some (ts, sg) =>
          let expected := hmac secret (ts ++ "." ++ body)
          if sg.utf8ByteSize = expected.utf8ByteSize then
            Except.ok (sg == expected && freshCheck nowMs ts toleranceMinutes)
          else
            Except.error bufferLengthErrMsg

/-- Byte-length profile of hex-encoded HMAC-SHA256 digests: 64 ASCII
characters, hence 64 UTF-8 bytes, for every secret and message. -/
def HexDigest64 (hmac : String → String → String) : Prop :=
  ∀ s m, (hmac s m).utf8ByteSize = 64

/-- Concrete digest function with the byte-length profile of hex-encoded
HMAC-SHA256, used to evaluate the verifier at closed inputs; the real digest
routine lives in the external node crypto library. -/
def hmacConst : String → String → String := fun _ _ =>
  "aaaaaaaaaaaaaaaaaaaaaaaaaaaaaaaaaaaaaaaaaaaaaaaaaaaaaaaaaaaaaaaa"

/-! ## Split lemmas -/

theorem toList_append (a b : String) : (a ++ b).toList = a.toList ++ b.toList :=
  String.data_append a b

theorem mk_toList (s : String) : String.mk s.toList = s := rfl

theorem mk_ne_empty {l : List Char} (h : l ≠ []) : String.mk l ≠ "" := by
  intro hc
  exact h (congrArg String.data hc)

theorem splitOnChar_ne_nil (c : Char) (xs : List Char) : splitOnChar c xs ≠ [] := by
  cases xs with
  | nil => simp [splitOnChar]
  | cons x xs =>
    unfold splitOnChar
    split <;> simp

theorem splitOnChar_no_sep {c : Char} {xs : List Char} (h : c ∉ xs) :
    splitOnChar c xs = [xs] := by
  induction xs with
  | nil => rfl
  | cons x xs ih =>
    rw [List.mem_cons, not_or] at h
    rw [splitOnChar]
    rw [if_neg (fun he => h.1 he.symm), ih h.2]
    rfl

theorem splitOnChar_append {c : Char} {xs : List Char} (ys : List Char) (h : c ∉ xs) :
    splitOnChar c (xs ++ c :: ys) = xs :: splitOnChar c ys := by
  induction xs with
  | nil => simp [splitOnChar]
  | cons x xs ih =>
    rw [List.mem_cons, not_or] at h
    rw [List.cons_append]
    rw [splitOnChar]
    rw [if_neg (fun he => h.1 he.symm), ih h.2]
    rfl

/-! ## Data model of the webhook payloads (src/types.ts) -/

/-- Work order fields relevant to the automation. The priority tag is kept as
a raw optional string to model the JavaScript runtime value (the declared
union type does not constrain incoming data); the remaining descriptive
fields are opaque pass-through data and are not modelled. -/
structure WorkOrderPayload where
  priority : Option String
deriving DecidableEq

/-- Inbound work order webhook payload (src/types.ts). -/
structure WorkOrderWebhookPayload where
  workOrderId : Int
  orgId : Int
  occurredAt : String
  newWorkOrder : Option WorkOrderPayload
deriving DecidableEq

/-- Response attached to a rejected axios call: HTTP status, response body
text (absent models an undefined body) and the x-rate-limit-reset header. -/
structure ErrResponse where
  status : Int
  data : Option String
  rateLimitReset : Option String
deriving DecidableEq

/-- Rejection value of an awaited axios call: the isAxiosError classification,
the optional HTTP response and the raw message. -/
structure HttpFailure where
  isAxiosErr : Bool
  response : Option ErrResponse
  message : String
deriving DecidableEq

/-- Outcome of the awaited GET call; on resolution the workOrder field of the
response data may still be absent. -/
inductive GetOutcome where
  | ok (workOrder : Option WorkOrderPayload)
  | err (e : HttpFailure)
deriving DecidableEq

/-- Resolved PATCH response: HTTP status and the two rate limit headers. -/
structure PatchResponse where
  status : Int
  rateLimitRemaining : Option String
  rateLimitReset : Option String
deriving DecidableEq

/-- Outcome of the awaited PATCH call. -/
inductive PatchOutcome where
  | ok (r : PatchResponse)
  | err (e : HttpFailure)
deriving DecidableEq

/-- Observable effects of one processWebhookEvent run: the console output in
order, the work order ids of issued GET requests, and the issued PATCH
requests as work order id paired with the dueDate body value. A PATCH that
was issued and then rejected still appears in patches. -/
structure Trace where
  logs : List LogEntry
  gets : List Int
  patches : List (Int × String)
deriving DecidableEq

/-- Test for a warning level entry. -/
def isWarnEntry (e : LogEntry) : Bool :=
  match e.level with
  | LogLevel.warn => true
  | _ => false

/-- Test for an error level entry. -/
def isErrorEntry (e : LogEntry) : Bool :=
  match e.level with
  | LogLevel.error => true
  | _ => false

/-- Entries of a trace logged at warning level. -/
def warnLogs (t : Trace) : List LogEntry := t.logs.filter isWarnEntry

/-- Entries of a trace logged at error level. -/
def errorLogs (t : Trace) : List LogEntry := t.logs.filter isErrorEntry

/-! ## Console messages of processWebhookEvent -/

/-- Prefix of the payload reception log of the fetch variant (the logged JSON
rendering of the payload is passed as a second console argument). -/
def recvMsg (wo : Int) : String :=
  "[processWebhookEvent] Received payload for WO " ++ toString wo ++ ":"

/-- Skip log of the variant without the GET fallback when the snapshot is
missing. -/
def missingDataMsg (wo : Int) : String :=
  "[processWebhookEvent] Work Order event for WO " ++ toString wo ++
    " missing newWorkOrder data. Skipping automation."

/-- Log announcing the fallback GET. -/
def fetchingMsg (wo : Int) : String :=
  "[processWebhookEvent] NewWorkOrder data missing from webhook for WO " ++ toString wo ++
    ". Fetching full Work Order details..."

/-- Log after a resolved fallback GET. -/
def fetchedMsg (wo : Int) : String :=
  "[processWebhookEvent] Successfully fetched full details for WO " ++ toString wo ++ "."

/-- Second console argument of the failure logs: the response data when a
response is present (undefined prints for an absent body), else the raw error
message. -/
def errPayloadText (e : HttpFailure) : String :=
  match e.response with
  | some r =>
    match r.data with
    | some s => s
    | none => "undefined"
  | none => e.message

/-- Error log of a rejected fallback GET. -/
def fetchFailMsg (wo : Int) (e : HttpFailure) : String :=
  "[processWebhookEvent] Failed to fetch full details for WO " ++ toString wo ++ ": " ++
    errPayloadText e

/-- Defensive error log when no details could be obtained. -/
def noDetailsMsg (wo : Int) : String :=
  "[processWebhookEvent] Could not obtain Work Order details for WO " ++ toString wo ++
    ". Cannot proceed with automation."

/-- Informational skip log for a priority-less work order. -/
def noPriorityMsg (wo : Int) : String :=
  "[processWebhookEvent] Work Order " ++ toString wo ++
    " has no priority set. Skipping due date automation."

/-- Error log of the unreachable null branch of the due date computation. -/
def calcFailMsg (wo : Int) (pr : String) : String :=
  "[processWebhookEvent] Could not calculate due date for Work Order " ++ toString wo ++
    " with priority " ++ pr ++ "."

/-- Log of the computed due date. -/
def calculatedMsg (wo : Int) (pr : String) (due : String) : String :=
  "[processWebhookEvent] Calculated new due date for WO " ++ toString wo ++
    " (Priority: " ++ pr ++ "): " ++ due

/-- Success log of the PATCH. -/
def updatedMsg (wo : Int) (status : Int) : String :=
  "[processWebhookEvent] Successfully updated Work Order " ++ toString wo ++
    ". Status: " ++ toString status

/-- Rate limit remaining log of a resolved PATCH. -/
def rlRemainingMsg (v : Option String) : String :=
  "[processWebhookEvent] Rate Limit Remaining: " ++ jsOr v "N/A"

/-- Rate limit reset log of a resolved PATCH. -/
def rlResetMsg (v : Option String) : String :=
  "[processWebhookEvent] Rate Limit Reset: " ++ jsOr v "N/A" ++ " seconds"

/-- Error log of a rejected PATCH. -/
def updateFailMsg (wo : Int) (e : HttpFailure) : String :=
  "[processWebhookEvent] Failed to update Work Order " ++ toString wo ++
    " in MaintainX: " ++ errPayloadText e

/-- Rate limit warning of a rejected PATCH with status 429. -/
def rateLimitedMsg (retryAfter : String) : String :=
  "[processWebhookEvent] Rate limited. Retrying after " ++ retryAfter ++
    " seconds. (In production, would queue for retry)"

/-- API key debug banner of the fetch variant. -/
def apiKeyDebugHeader : String := "--- API Key Debug ---"

/-- API key debug line of the fetch variant. -/
def apiKeyDebugMsg (apiKey : String) : String :=
  "Full MAINTAINX_API_KEY (DEBUG):" ++ apiKey

namespace WebhookHandler

/-- Model of processWebhookEvent of src/webhookHandler.ts, the variant without
a GET fallback: a missing snapshot or missing priority is an informational
skip; otherwise the due date is computed and one PATCH issued, whose rejection
is classified in the catch as either a 429 rate limit warning or an error log.
The current instant feeds calculateDueDate; the awaited PATCH outcome is a
parameter; the result is the trace of observable effects, inside Except so
that an exception escaping the try/catch structure would surface as the error
case. -/
def processWebhookEvent (nowMs : Nat) (p : WorkOrderWebhookPayload)
    (patchO : PatchOutcome) : Except HttpFailure Trace :=
  let wo := p.workOrderId
  match p.newWorkOrder with
  | none => Except.ok ⟨[⟨LogLevel.info, missingDataMsg wo⟩], [], []⟩
  | some details =>
    if jsFalsyOpt details.priority then
      Except.ok ⟨[⟨LogLevel.info, noPriorityMsg wo⟩], [], []⟩
    else
      let pr := details.priority.getD ""
      let cdd := calculateDueDate nowMs details.priority
      match cdd.1 with
      | none => Except.ok ⟨cdd.2 ++ [⟨LogLevel.error, calcFailMsg wo pr⟩], [], []⟩
      | some dueDate =>
        if dueDate = "" then
          Except.ok ⟨cdd.2 ++ [⟨LogLevel.error, calcFailMsg wo pr⟩], [], []⟩
        else
          let l := cdd.2 ++ [⟨LogLevel.info, calculatedMsg wo pr dueDate⟩]
          match patchO with
          | PatchOutcome.ok r =>
            Except.ok ⟨l ++ [⟨LogLevel.info, updatedMsg wo r.status⟩,
              ⟨LogLevel.info, rlRemainingMsg r.rateLimitRemaining⟩,
              ⟨LogLevel.info, rlResetMsg r.rateLimitReset⟩], [], [(wo, dueDate)]⟩
          | PatchOutcome.err e =>
            match e.response with
            | some r =>
              if e.isAxiosErr && r.status == 429 then
                Except.ok ⟨l ++ [⟨LogLevel.warn, rateLimitedMsg (jsOr r.rateLimitReset "10")⟩],
                  [], [(wo, dueDate)]⟩
              else
                Except.ok ⟨l ++ [⟨LogLevel.error, updateFailMsg wo e⟩], [], [(wo, dueDate)]⟩
            | none =>
              Except.ok ⟨l ++ [⟨LogLevel.error, updateFailMsg wo e⟩], [], [(wo, dueDate)]⟩

end WebhookHandler

namespace WebhookHandlerFetch

/-- Model of the processWebhookEvent variant with the GET fallback (the later
revision shipped alongside the full verifier): it logs the received payload,
resolves a missing snapshot with a GET guarded by try/catch (terminating on
rejection or on an absent workOrder field), skips priority-less orders, logs
the computed due date plus an API key debug pair, issues the PATCH, and in
the catch of the PATCH always logs the failure as an error, adding a rate
limit warning when the rejection is an axios error carrying a response with
status 429. -/
def processWebhookEvent (nowMs : Nat) (apiKey : String) (p : WorkOrderWebhookPayload)
    (getO : GetOutcome) (patchO : PatchOutcome) : Except HttpFailure Trace :=
  let wo := p.workOrderId
  let l0 : List LogEntry := [⟨LogLevel.info, recvMsg wo⟩]
  let resolved : Trace ⊕ (List LogEntry × List Int × WorkOrderPayload) :=
    match p.newWorkOrder with
    | some d => Sum.inr (l0, [], d)
    | none =>
      let l1 := l0 ++ [⟨LogLevel.info, fetchingMsg wo⟩]
      match getO with
      | GetOutcome.ok d? =>
        let l2 := l1 ++ [⟨LogLevel.info, fetchedMsg wo⟩]
        match d? with
        | some d => Sum.inr (l2, [wo], d)
        | none => Sum.inl ⟨l2 ++ [⟨LogLevel.error, noDetailsMsg wo⟩], [wo], []⟩
      | GetOutcome.err e => Sum.inl ⟨l1 ++ [⟨LogLevel.error, fetchFailMsg wo e⟩], [wo], []⟩
  match resolved with
  | Sum.inl t => Except.ok t
  | Sum.inr (l2, gets, details) =>
    if jsFalsyOpt details.priority then
      Except.ok ⟨l2 ++ [⟨LogLevel.info, noPriorityMsg wo⟩], gets, []⟩
    else
      let pr := details.priority.getD ""
      let cdd := calculateDueDate nowMs details.priority
      match cdd.1 with
      | none => Except.ok ⟨l2 ++ cdd.2 ++ [⟨LogLevel.error, calcFailMsg wo pr⟩], gets, []⟩
      | some dueDate =>
        if dueDate = "" then
          Except.ok ⟨l2 ++ cdd.2 ++ [⟨LogLevel.error, calcFailMsg wo pr⟩], gets, []⟩
        else
          let l3 := l2 ++ cdd.2 ++ [⟨LogLevel.info, calculatedMsg wo pr dueDate⟩,
            ⟨LogLevel.info, apiKeyDebugHeader⟩, ⟨LogLevel.info, apiKeyDebugMsg apiKey⟩]
          match patchO with
          | PatchOutcome.ok r =>
            Except.ok ⟨l3 ++ [⟨LogLevel.info, updatedMsg wo r.status⟩,
              ⟨LogLevel.info, rlRemainingMsg r.rateLimitRemaining⟩,
              ⟨LogLevel.info, rlResetMsg r.rateLimitReset⟩], gets, [(wo, dueDate)]⟩
          | PatchOutcome.err e =>
            let l4 := l3 ++ [⟨LogLevel.error, updateFailMsg wo e⟩]
            match e.response with
            | some r =>
              if e.isAxiosErr && r.status == 429 then
                Except.ok ⟨l4 ++ [⟨LogLevel.warn, rateLimitedMsg (jsOr r.rateLimitReset "10")⟩],
                  gets, [(wo, dueDate)]⟩
              else
                Except.ok ⟨l4, gets, [(wo, dueDate)]⟩
            | none =>
              Except.ok ⟨l4, gets, [(wo, dueDate)]⟩

end WebhookHandlerFetch

/-! ## Helper lemmas for the claims -/

theorem toISOString_ne_empty (t : Nat) : toISOString t ≠ "" := by
  unfold toISOString toISOChars pad4
  apply mk_ne_empty
  simp

/-- The four priority tags of the WorkOrderPriority union type. -/
def knownPriorities : List String := ["HIGH", "MEDIUM", "LOW", "NONE"]

theorem daysToAddFor_known {pr : String} (h : pr ∈ knownPriorities) :
    (daysToAddFor (some pr)).2 = [] := by
  simp only [knownPriorities, List.mem_cons, List.not_mem_nil, or_false] at h
  rcases h with h | h | h | h <;> subst h <;> rfl

theorem daysToAddFor_default {p : Option String}
    (hp : ∀ pr, p = some pr → pr ∉ knownPriorities) :
    daysToAddFor p = (7, [⟨LogLevel.warn, unknownPriorityMsg p⟩]) := by
  match p with
  | none => rfl
  | some v =>
    have hs := hp v rfl
    simp only [knownPriorities, List.mem_cons, List.not_mem_nil, or_false, not_or] at hs
    unfold daysToAddFor
    split <;> simp_all

theorem daysToAddFor_le (p : Option String) : (daysToAddFor p).1 ≤ 14 := by
  unfold daysToAddFor
  split <;> simp

theorem containsVal_concat (a v b : String) : containsVal (a ++ v ++ b) v := ⟨a, b, rfl⟩

theorem containsVal_empty (msg : String) : containsVal msg "" :=
  ⟨msg, "", by simp⟩

/-! ## Claims C6, C7, C3, C9 -/

/-- C6: calculateDueDate maps HIGH to a one day offset, MEDIUM to three days,
LOW to seven days and NONE to fourteen days from the current instant with no
diagnostic, and maps every other value, including an absent priority, to the
same seven day offset as LOW while emitting one warning level diagnostic
naming the unrecognized value. -/
theorem due_date_priority_mapping (nowMs : Nat) (p : Option String)
    (hp : ∀ pr, p = some pr → pr ∉ knownPriorities) :
    calculateDueDateMs nowMs (some "HIGH") = nowMs + 1 * 86400000 ∧
    calculateDueDateMs nowMs (some "MEDIUM") = nowMs + 3 * 86400000 ∧
    calculateDueDateMs nowMs (some "LOW") = nowMs + 7 * 86400000 ∧
    calculateDueDateMs nowMs (some "NONE") = nowMs + 14 * 86400000 ∧
    (∀ pr, pr ∈ knownPriorities → (calculateDueDate nowMs (some pr)).2 = []) ∧
    calculateDueDateMs nowMs p = nowMs + 7 * 86400000 ∧
    (calculateDueDate nowMs p).1 = (calculateDueDate nowMs (some "LOW")).1 ∧
    (calculateDueDate nowMs p).2 = [⟨LogLevel.warn, unknownPriorityMsg p⟩] ∧
    containsVal (unknownPriorityMsg p) (priorityText p) := by
  have hd := daysToAddFor_default hp
  refine ⟨rfl, rfl, rfl, rfl, ?_, ?_, ?_, ?_, ?_⟩
  · intro pr h
    unfold calculateDueDate
    rw [daysToAddFor_known h]
  · unfold calculateDueDateMs
    rw [hd]
  · unfold calculateDueDate calculateDueDateMs
    rw [hd]
    rfl
  · unfold calculateDueDate
    rw [hd]
  · exact ⟨"[calculateDueDate] Unknown or undefined priority: \"",
      "\". Defaulting to 7 days.", rfl⟩

theorem due_date_priority_mapping_witness :
    (∀ pr, (some "URGENT" : Option String) = some pr → pr ∉ knownPriorities) ∧
    calculateDueDateMs 0 (some "URGENT") = 0 + 7 * 86400000 ∧
    (calculateDueDate 0 (some "URGENT")).2 =
      [⟨LogLevel.warn, unknownPriorityMsg (some "URGENT")⟩] := by
  have hhyp : ∀ pr, (some "URGENT" : Option String) = some pr → pr ∉ knownPriorities := by
    intro pr h
    cases h
    decide
  have h := due_date_priority_mapping 0 (some "URGENT") hhyp
  exact ⟨hhyp, h.2.2.2.2.2.1, h.2.2.2.2.2.2.2.1⟩

/-- C7: calculateDueDate is total over every priority input, known, unknown
or absent: for any current instant up to fourteen days before the end of year
9999 it returns a string, never null, and that string is a structurally valid
ISO-8601 UTC timestamp with millisecond precision. -/
theorem due_date_total_valid_iso (nowMs : Nat) (p : Option String)
    (h : nowMs ≤ 253401091199999) :
    ∃ s, (calculateDueDate nowMs p).1 = some s ∧ isValidIso s = true := by
  refine ⟨toISOString (calculateDueDateMs nowMs p), rfl, ?_⟩
  apply isValidIso_toISOString
  have := daysToAddFor_le p
  unfold calculateDueDateMs
  omega

theorem due_date_total_valid_iso_witness :
    (1718452800000 : Nat) ≤ 253401091199999 ∧
    ∃ s, (calculateDueDate 1718452800000 none).1 = some s ∧ isValidIso s = true :=
  ⟨by decide, due_date_total_valid_iso 1718452800000 none (by decide)⟩

/-- C3: the freshness test applied by verifyWebhookSignature accepts a parsed
timestamp t exactly when now minus t scaled to milliseconds is strictly below
the tolerance window; with a nonnegative tolerance every future timestamp is
accepted as fresh, and a timestamp aged at least the window is rejected. -/
theorem verify_freshness_window (nowMs tol : Int) (ts : String) (t : Int)
    (hparse : jsParseInt10 ts = some t) :
    (freshCheck nowMs ts tol = true ↔ nowMs - t * 1000 < tol * 60 * 1000) ∧
    (0 ≤ tol → nowMs < t * 1000 → freshCheck nowMs ts tol = true) ∧
    (tol * 60 * 1000 ≤ nowMs - t * 1000 → freshCheck nowMs ts tol = false) := by
  unfold freshCheck
  rw [hparse]
  refine ⟨by simp, ?_, ?_⟩
  · intro h1 h2
    have hlt : nowMs - t * 1000 < tol * 60 * 1000 := by omega
    simpa using hlt
  · intro h1
    have hge : ¬ nowMs - t * 1000 < tol * 60 * 1000 := by omega
    simpa using hge

theorem verify_freshness_window_witness :
    jsParseInt10 "100" = some 100 ∧
    (freshCheck 50000 "100" 5 = true ↔ (50000 : Int) - 100 * 1000 < 5 * 60 * 1000) := by
  have hp : jsParseInt10 "100" = some 100 := by rfl
  exact ⟨hp, (verify_freshness_window 50000 5 "100" 100 hp).1⟩

/-- C9: for every inbound payload and every outcome of the remote GET and
PATCH calls, both processWebhookEvent variants return a trace and never
propagate an exception to the caller: every rejection of an awaited call is
consumed by a catch block and ends processing of the current event only. -/
theorem process_never_throws :
    (∀ nowMs p patchO, (WebhookHandler.processWebhookEvent nowMs p patchO).isOk = true) ∧
    (∀ nowMs apiKey p getO patchO,
      (WebhookHandlerFetch.processWebhookEvent nowMs apiKey p getO patchO).isOk = true) := by
  constructor
  · intro nowMs p patchO
    unfold WebhookHandler.processWebhookEvent
    dsimp only
    repeat' split
    all_goals rfl
  · intro nowMs apiKey p getO patchO
    unfold WebhookHandlerFetch.processWebhookEvent
    dsimp only
    repeat' split
    all_goals rfl

/-! ## Claims C8, C5, C4 -/

/-- C8: an event whose resolved snapshot has no priority set ends as a logged
no-op: one informational skip log, no due date logged, and no PATCH issued.
Stated for the variant without GET fallback and for both resolution paths of
the fetch variant. -/
theorem no_priority_skips (nowMs : Nat) (apiKey : String) (p : WorkOrderWebhookPayload)
    (d : WorkOrderPayload) (getO : GetOutcome) (patchO : PatchOutcome)
    (hd : d.priority = none) :
    (p.newWorkOrder = some d →
      WebhookHandler.processWebhookEvent nowMs p patchO =
        Except.ok ⟨[⟨LogLevel.info, noPriorityMsg p.workOrderId⟩], [], []⟩) ∧
    (p.newWorkOrder = some d →
      WebhookHandlerFetch.processWebhookEvent nowMs apiKey p getO patchO =
        Except.ok ⟨[⟨LogLevel.info, recvMsg p.workOrderId⟩,
          ⟨LogLevel.info, noPriorityMsg p.workOrderId⟩], [], []⟩) ∧
    (p.newWorkOrder = none → getO = GetOutcome.ok (some d) →
      WebhookHandlerFetch.processWebhookEvent nowMs apiKey p getO patchO =
        Except.ok ⟨[⟨LogLevel.info, recvMsg p.workOrderId⟩,
          ⟨LogLevel.info, fetchingMsg p.workOrderId⟩,
          ⟨LogLevel.info, fetchedMsg p.workOrderId⟩,
          ⟨LogLevel.info, noPriorityMsg p.workOrderId⟩], [p.workOrderId], []⟩) := by
  refine ⟨?_, ?_, ?_⟩
  · intro hp
    unfold WebhookHandler.processWebhookEvent
    rw [hp]
    dsimp only
    rw [hd]
    rfl
  · intro hp
    unfold WebhookHandlerFetch.processWebhookEvent
    rw [hp]
    dsimp only
    rw [hd]
    rfl
  · intro hp hg
    unfold WebhookHandlerFetch.processWebhookEvent
    rw [hp, hg]
    dsimp only
    rw [hd]
    rfl

theorem no_priority_skips_witness :
    ((⟨none⟩ : WorkOrderPayload).priority = none) ∧
    WebhookHandler.processWebhookEvent 0 ⟨7, 1, "now", some ⟨none⟩⟩
        (PatchOutcome.ok ⟨200, none, none⟩) =
      Except.ok ⟨[⟨LogLevel.info, noPriorityMsg 7⟩], [], []⟩ := by
  refine ⟨rfl, ?_⟩
  exact (no_priority_skips 0 "k" ⟨7, 1, "now", some ⟨none⟩⟩ ⟨none⟩
    (GetOutcome.ok (some ⟨none⟩)) (PatchOutcome.ok ⟨200, none, none⟩) rfl).1 rfl

/-- C5: resolution of work order details in the fetch variant: an embedded
snapshot is used directly and no GET is issued, with the PATCH driven by the
snapshot priority when one is present; a missing snapshot triggers exactly
one GET for the work order id; a rejected GET ends processing with an error
log and no PATCH issued. -/
theorem resolve_details_fetch_fallback (nowMs : Nat) (apiKey : String)
    (p : WorkOrderWebhookPayload) (getO : GetOutcome) (patchO : PatchOutcome) :
    (∀ d, p.newWorkOrder = some d →
      ∃ tr, WebhookHandlerFetch.processWebhookEvent nowMs apiKey p getO patchO =
        Except.ok tr ∧ tr.gets = []) ∧
    (∀ d pr, p.newWorkOrder = some d → d.priority = some pr → pr ≠ "" →
      ∃ tr, WebhookHandlerFetch.processWebhookEvent nowMs apiKey p getO patchO =
        Except.ok tr ∧ tr.gets = [] ∧
        tr.patches = [(p.workOrderId, toISOString (calculateDueDateMs nowMs (some pr)))]) ∧
    (p.newWorkOrder = none →
      ∃ tr, WebhookHandlerFetch.processWebhookEvent nowMs apiKey p getO patchO =
        Except.ok tr ∧ tr.gets = [p.workOrderId]) ∧
    (∀ e, p.newWorkOrder = none → getO = GetOutcome.err e →
      WebhookHandlerFetch.processWebhookEvent nowMs apiKey p getO patchO =
        Except.ok ⟨[⟨LogLevel.info, recvMsg p.workOrderId⟩,
          ⟨LogLevel.info, fetchingMsg p.workOrderId⟩,
          ⟨LogLevel.error, fetchFailMsg p.workOrderId e⟩], [p.workOrderId], []⟩) := by
  refine ⟨?_, ?_, ?_, ?_⟩
  · intro d hp
    unfold WebhookHandlerFetch.processWebhookEvent
    rw [hp]
    dsimp only
    repeat' split
    all_goals exact ⟨_, rfl, rfl⟩
  · intro d pr hp hpr hne
    unfold WebhookHandlerFetch.processWebhookEvent
    rw [hp]
    dsimp only
    rw [if_neg (show ¬ jsFalsyOpt d.priority = true by
      rw [hpr]; unfold jsFalsyOpt; simpa using hne)]
    rw [hpr]
    dsimp only [calculateDueDate, Option.getD]
    rw [if_neg (toISOString_ne_empty (calculateDueDateMs nowMs (some pr)))]
    repeat' split
    all_goals exact ⟨_, rfl, rfl, rfl⟩
  · intro hp
    unfold WebhookHandlerFetch.processWebhookEvent
    rw [hp]
    rcases getO with d? | e
    · rcases d? with _ | d
      · exact ⟨_, rfl, rfl⟩
      · dsimp only
        repeat' split
        all_goals exact ⟨_, rfl, rfl⟩
    · exact ⟨_, rfl, rfl⟩
  · intro e hp hg
    unfold WebhookHandlerFetch.processWebhookEvent
    rw [hp, hg]
    rfl

theorem resolve_details_fetch_fallback_witness :
    ((⟨5, 2, "t", none⟩ : WorkOrderWebhookPayload).newWorkOrder = none) ∧
    WebhookHandlerFetch.processWebhookEvent 0 "k" ⟨5, 2, "t", none⟩
        (GetOutcome.err ⟨true, some ⟨500, some "boom", none⟩, "m"⟩)
        (PatchOutcome.ok ⟨200, none, none⟩) =
      Except.ok ⟨[⟨LogLevel.info, recvMsg 5⟩, ⟨LogLevel.info, fetchingMsg 5⟩,
        ⟨LogLevel.error, fetchFailMsg 5 ⟨true, some ⟨500, some "boom", none⟩, "m"⟩⟩],
        [5], []⟩ := by
  refine ⟨rfl, ?_⟩
  exact (resolve_details_fetch_fallback 0 "k" ⟨5, 2, "t", none⟩
    (GetOutcome.err ⟨true, some ⟨500, some "boom", none⟩, "m"⟩)
    (PatchOutcome.ok ⟨200, none, none⟩)).2.2.2
    ⟨true, some ⟨500, some "boom", none⟩, "m"⟩ rfl rfl

/-- C4: classification of a rejected PATCH in the processWebhookEvent variant
of src/webhookHandler.ts, run on a snapshot with a known priority: an axios
rejection carrying a response with status 429 yields exactly one warning log
naming the x-rate-limit-reset header value (10 when the header is absent or
empty) and no error log, while every other rejection yields exactly one error
log naming the remote response body (or the raw message when no response is
attached) and no warning. -/
theorem update_failure_classification (nowMs : Nat) (p : WorkOrderWebhookPayload)
    (d : WorkOrderPayload) (pr : String) (e : HttpFailure)
    (hp : p.newWorkOrder = some d) (hpr : d.priority = some pr)
    (hk : pr ∈ knownPriorities) :
    (∀ r, e.response = some r → e.isAxiosErr = true → r.status = 429 →
      ∃ tr, WebhookHandler.processWebhookEvent nowMs p (PatchOutcome.err e) = Except.ok tr ∧
        warnLogs tr = [⟨LogLevel.warn, rateLimitedMsg (jsOr r.rateLimitReset "10")⟩] ∧
        errorLogs tr = [] ∧
        (∀ v, r.rateLimitReset = some v →
          containsVal (rateLimitedMsg (jsOr r.rateLimitReset "10")) v) ∧
        (r.rateLimitReset = none →
          containsVal (rateLimitedMsg (jsOr r.rateLimitReset "10")) "10")) ∧
    (¬ (e.isAxiosErr = true ∧ ∃ r, e.response = some r ∧ r.status = 429) →
      ∃ tr, WebhookHandler.processWebhookEvent nowMs p (PatchOutcome.err e) = Except.ok tr ∧
        errorLogs tr = [⟨LogLevel.error, updateFailMsg p.workOrderId e⟩] ∧
        warnLogs tr = [] ∧
        containsVal (updateFailMsg p.workOrderId e) (errPayloadText e)) := by
  have hne : pr ≠ "" := by
    simp only [knownPriorities, List.mem_cons, List.not_mem_nil, or_false] at hk
    rcases hk with h | h | h | h <;> subst h <;> decide
  have hcdd : (daysToAddFor (some pr)).2 = [] := daysToAddFor_known hk
  have hcon : containsVal (updateFailMsg p.workOrderId e) (errPayloadText e) :=
    ⟨"[processWebhookEvent] Failed to update Work Order " ++ toString p.workOrderId ++
      " in MaintainX: ", "", by simp [updateFailMsg]⟩
  constructor
  · intro r hr hax h429
    unfold WebhookHandler.processWebhookEvent
    rw [hp]
    dsimp only
    rw [if_neg (show ¬ jsFalsyOpt d.priority = true by
      rw [hpr]; unfold jsFalsyOpt; simpa using hne)]
    rw [hpr]
    dsimp only [calculateDueDate, Option.getD]
    rw [hcdd]
    rw [if_neg (toISOString_ne_empty (calculateDueDateMs nowMs (some pr)))]
    rw [hr]
    dsimp only
    rw [hax, h429]
    rw [if_pos (by rfl)]
    refine ⟨_, rfl, rfl, rfl, ?_, ?_⟩
    · intro v hv
      rw [hv]
      unfold jsOr
      dsimp only
      split
      · rename_i hveq
        subst hveq
        exact containsVal_empty _
      · exact containsVal_concat "[processWebhookEvent] Rate limited. Retrying after " v
          " seconds. (In production, would queue for retry)"
    · intro hv
      rw [hv]
      exact containsVal_concat "[processWebhookEvent] Rate limited. Retrying after " "10"
        " seconds. (In production, would queue for retry)"
  · intro hno
    unfold WebhookHandler.processWebhookEvent
    rw [hp]
    dsimp only
    rw [if_neg (show ¬ jsFalsyOpt d.priority = true by
      rw [hpr]; unfold jsFalsyOpt; simpa using hne)]
    rw [hpr]
    dsimp only [calculateDueDate, Option.getD]
    rw [hcdd]
    rw [if_neg (toISOString_ne_empty (calculateDueDateMs nowMs (some pr)))]
    rcases hre : e.response with _ | r
    · exact ⟨_, rfl, rfl, rfl, hcon⟩
    · dsimp only
      rw [if_neg (show ¬ (e.isAxiosErr && r.status == 429) = true by
        intro hc
        rw [Bool.and_eq_true, beq_iff_eq] at hc
        exact hno ⟨hc.1, r, hre, hc.2⟩)]
      exact ⟨_, rfl, rfl, rfl, hcon⟩

theorem update_failure_classification_witness :
    ((⟨9, 1, "t", some ⟨some "HIGH"⟩⟩ : WorkOrderWebhookPayload).newWorkOrder =
      some ⟨some "HIGH"⟩) ∧
    ("HIGH" ∈ knownPriorities) ∧
    ∃ tr, WebhookHandler.processWebhookEvent 0 ⟨9, 1, "t", some ⟨some "HIGH"⟩⟩
        (PatchOutcome.err ⟨true, some ⟨429, some "Too Many Requests", some "60"⟩, "m"⟩) =
      Except.ok tr ∧
      warnLogs tr = [⟨LogLevel.warn, rateLimitedMsg (jsOr (some "60") "10")⟩] ∧
      errorLogs tr = [] ∧
      (∀ v, (some "60" : Option String) = some v →
        containsVal (rateLimitedMsg (jsOr (some "60") "10")) v) ∧
      ((some "60" : Option String) = none →
        containsVal (rateLimitedMsg (jsOr (some "60") "10")) "10") := by
  refine ⟨rfl, by decide, ?_⟩
  exact (update_failure_classification 0 ⟨9, 1, "t", some ⟨some "HIGH"⟩⟩ ⟨some "HIGH"⟩
    "HIGH" ⟨true, some ⟨429, some "Too Many Requests", some "60"⟩, "m"⟩ rfl rfl
    (by decide)).1 ⟨429, some "Too Many Requests", some "60"⟩ rfl rfl rfl

/-! ## Claims C1, C2, C10 -/

/-- C1 (code bug): a signature header whose digest component differs in byte
length from the 64 byte hex-encoded HMAC-SHA256 digest makes
verifyWebhookSignature raise the RangeError of timingSafeEqual instead of
returning false: at the failing header t=1,v1=ab the verifier throws, for
every digest function with the HMAC-SHA256 length profile and every body,
secret, clock and tolerance. -/
theorem verify_length_mismatch_throws (hmac : String → String → String)
    (nowMs tol : Int) (body secret : String) (hlen : HexDigest64 hmac) :
    verifyWebhookSignature hmac nowMs (some "t=1,v1=ab") (some body) secret tol =
      Except.error bufferLengthErrMsg := by
  unfold verifyWebhookSignature
  dsimp only
  rw [if_neg (show ¬ ("t=1,v1=ab" : String) = "" by decide)]
  rw [show parseSignatureHeader "t=1,v1=ab" = some ("1", "ab") from rfl]
  dsimp only
  rw [if_neg (show ¬ ("ab" : String).utf8ByteSize =
    (hmac secret ("1" ++ "." ++ body)).utf8ByteSize by rw [hlen]; decide)]

theorem verify_length_mismatch_throws_witness :
    HexDigest64 hmacConst ∧
    verifyWebhookSignature hmacConst 0 (some "t=1,v1=ab") (some "x") "s" 5 =
      Except.error bufferLengthErrMsg := by
  have h : HexDigest64 hmacConst := fun s m => rfl
  exact ⟨h, verify_length_mismatch_throws hmacConst 0 5 "x" "s" h⟩

/-- Branch evaluation of the verifier once header, body and parse have been
fixed: the result is decided by the byte-length comparison of the two
digests. -/
theorem verify_eval (hmac : String → String → String) (nowMs tol : Int)
    (hs bs secret ts sg : String) (hhs : hs ≠ "")
    (hpp : parseSignatureHeader hs = some (ts, sg)) :
    verifyWebhookSignature hmac nowMs (some hs) (some bs) secret tol =
      if sg.utf8ByteSize = (hmac secret (ts ++ "." ++ bs)).utf8ByteSize then
        Except.ok (sg == hmac secret (ts ++ "." ++ bs) && freshCheck nowMs ts tol)
      else Except.error bufferLengthErrMsg := by
  unfold verifyWebhookSignature
  dsimp only
  rw [if_neg hhs, hpp]

/-- C2 (corrected): full characterization of verifyWebhookSignature. It
returns true exactly when the header and body are present, the header parses
positionally into a nonempty timestamp and digest, the digest equals the
expected hex HMAC-SHA256 of the signed payload and the timestamp is fresh; it
throws exactly when header and body are present, the header parses, and the
parsed digest differs in UTF-8 byte length from the expected digest; in every
remaining case it returns false. -/
theorem verify_characterization (hmac : String → String → String) (nowMs tol : Int)
    (shdr body : Option String) (secret : String) :
    (verifyWebhookSignature hmac nowMs shdr body secret tol = Except.ok true ↔
      (∃ hs bs ts sg, shdr = some hs ∧ hs ≠ "" ∧ body = some bs ∧
        parseSignatureHeader hs = some (ts, sg) ∧
        sg = hmac secret (ts ++ "." ++ bs) ∧ freshCheck nowMs ts tol = true)) ∧
    ((∃ msg, verifyWebhookSignature hmac nowMs shdr body secret tol = Except.error msg) ↔
      (∃ hs bs ts sg, shdr = some hs ∧ hs ≠ "" ∧ body = some bs ∧
        parseSignatureHeader hs = some (ts, sg) ∧
        sg.utf8ByteSize ≠ (hmac secret (ts ++ "." ++ bs)).utf8ByteSize)) ∧
    (verifyWebhookSignature hmac nowMs shdr body secret tol = Except.ok false ↔
      (¬ (∃ hs bs ts sg, shdr = some hs ∧ hs ≠ "" ∧ body = some bs ∧
        parseSignatureHeader hs = some (ts, sg) ∧
        sg = hmac secret (ts ++ "." ++ bs) ∧ freshCheck nowMs ts tol = true) ∧
       ¬ (∃ hs bs ts sg, shdr = some hs ∧ hs ≠ "" ∧ body = some bs ∧
        parseSignatureHeader hs = some (ts, sg) ∧
        sg.utf8ByteSize ≠ (hmac secret (ts ++ "." ++ bs)).utf8ByteSize))) := by
  rcases shdr with _ | hs
  · simp [verifyWebhookSignature]
  · by_cases hhs : hs = ""
    · subst hhs
      simp [verifyWebhookSignature]
    · rcases body with _ | bs
      · simp [verifyWebhookSignature, hhs]
      · rcases hpp : parseSignatureHeader hs with _ | ⟨ts, sg⟩
        · have hv : verifyWebhookSignature hmac nowMs (some hs) (some bs) secret tol =
              Except.ok false := by
            unfold verifyWebhookSignature
            dsimp only
            rw [if_neg hhs, hpp]
          simp [hv, hpp, hhs]
        · rw [verify_eval hmac nowMs tol hs bs secret ts sg hhs hpp]
          by_cases hsz : sg.utf8ByteSize = (hmac secret (ts ++ "." ++ bs)).utf8ByteSize
          · rw [if_pos hsz]
            refine ⟨?_, ?_, ?_⟩
            · simp only [Except.ok.injEq, Bool.and_eq_true, beq_iff_eq]
              constructor
              · rintro ⟨h1, h2⟩
                exact ⟨hs, bs, ts, sg, rfl, hhs, rfl, hpp, h1, h2⟩
              · rintro ⟨hs2, bs2, ts2, sg2, he1, he2, he3, he4, he5, he6⟩
                cases he1
                cases he3
                rw [hpp] at he4
                cases he4
                exact ⟨he5, he6⟩
            · constructor
              · rintro ⟨m, hm⟩
                exact absurd hm (by simp)
              · rintro ⟨hs2, bs2, ts2, sg2, he1, he2, he3, he4, he5⟩
                cases he1
                cases he3
                rw [hpp] at he4
                cases he4
                exact absurd hsz he5
            · simp only [Except.ok.injEq]
              constructor
              · intro hf
                refine ⟨?_, ?_⟩
                · rintro ⟨hs2, bs2, ts2, sg2, he1, he2, he3, he4, he5, he6⟩
                  cases he1
                  cases he3
                  rw [hpp] at he4
                  cases he4
                  rw [he5, he6] at hf
                  simp at hf
                · rintro ⟨hs2, bs2, ts2, sg2, he1, he2, he3, he4, he5⟩
                  cases he1
                  cases he3
                  rw [hpp] at he4
                  cases he4
                  exact he5 hsz
              · rintro ⟨hA, hB⟩
                rcases hb : (sg == hmac secret (ts ++ "." ++ bs)) with _ | _
                · simp
                · rcases hfr : freshCheck nowMs ts tol with _ | _
                  · simp
                  · exact absurd ⟨hs, bs, ts, sg, rfl, hhs, rfl, hpp,
                      beq_iff_eq.mp hb, hfr⟩ hA
          · rw [if_neg hsz]
            refine ⟨?_, ?_, ?_⟩
            · constructor
              · intro hm
                exact absurd hm (by simp)
              · rintro ⟨hs2, bs2, ts2, sg2, he1, he2, he3, he4, he5, he6⟩
                cases he1
                cases he3
                rw [hpp] at he4
                cases he4
                exact absurd (congrArg String.utf8ByteSize he5) hsz
            · constructor
              · intro h
                exact ⟨hs, bs, ts, sg, rfl, hhs, rfl, hpp, hsz⟩
              · intro h
                exact ⟨bufferLengthErrMsg, rfl⟩
            · constructor
              · intro hm
                exact absurd hm (by simp)
              · rintro ⟨h1, h2⟩
                exact absurd ⟨hs, bs, ts, sg, rfl, hhs, rfl, hpp, hsz⟩ h2

/-- Counterexample to the claim that verifyWebhookSignature returns false in
every non-matching case: at the concrete header t=1,v1=abc with a digest of
byte length 3 the call throws the RangeError instead of returning false. -/
theorem verify_throws_counterexample :
    verifyWebhookSignature hmacConst 0 (some "t=1,v1=abc") (some "x") "s" 5 =
      Except.error bufferLengthErrMsg ∧
    verifyWebhookSignature hmacConst 0 (some "t=1,v1=abc") (some "x") "s" 5 ≠
      Except.ok false := by
  refine ⟨rfl, ?_⟩
  intro h
  rw [(rfl : verifyWebhookSignature hmacConst 0 (some "t=1,v1=abc") (some "x") "s" 5 =
    Except.error bufferLengthErrMsg)] at h
  exact Except.noConfusion h

/-- Extraction of a key=value segment: the value of a segment built from an
equals-sign-free key and an equals-sign-free value is that value, regardless
of the key text. -/
theorem segValue_keyval (k v : String) (hk : ('=' : Char) ∉ k.toList)
    (hv : ('=' : Char) ∉ v.toList) :
    segValue (some (String.mk (k.toList ++ '=' :: v.toList))) = some v := by
  unfold segValue
  dsimp only
  rw [if_neg (mk_ne_empty (by simp))]
  unfold jsSplitChar
  rw [show (String.mk (k.toList ++ '=' :: v.toList)).toList = k.toList ++ '=' :: v.toList
    from rfl]
  rw [splitOnChar_append _ hk, splitOnChar_no_sep hv]
  simp [mk_toList]

/-- C10: the header parse of verifyWebhookSignature is purely positional: for
arbitrary key names it takes the value of segment 0 as the timestamp and the
value of segment 1 as the digest, ignoring any further segments; hence the
undocumented header shape foo=1,bar=digest verifies successfully against a
matching digest, while the documented pairs in swapped order yield the digest
text in the timestamp slot rather than the value keyed by t. -/
theorem header_positional_parsing :
    (∀ k1 k2 tsv sgv : String,
      (',' : Char) ∉ k1.toList → ('=' : Char) ∉ k1.toList →
      (',' : Char) ∉ k2.toList → ('=' : Char) ∉ k2.toList →
      (',' : Char) ∉ tsv.toList → ('=' : Char) ∉ tsv.toList →
      (',' : Char) ∉ sgv.toList → ('=' : Char) ∉ sgv.toList →
      tsv ≠ "" → sgv ≠ "" →
      parseSignatureHeader (k1 ++ "=" ++ tsv ++ "," ++ k2 ++ "=" ++ sgv) = some (tsv, sgv) ∧
      (∀ rest : String,
        parseSignatureHeader (k1 ++ "=" ++ tsv ++ "," ++ k2 ++ "=" ++ sgv ++ "," ++ rest) =
          some (tsv, sgv))) ∧
    verifyWebhookSignature hmacConst 0
      (some ("foo=1,bar=" ++ hmacConst "s" "1.x")) (some "x") "s" 5 = Except.ok true ∧
    parseSignatureHeader "v1=beef,t=5" = some ("beef", "5") := by
  refine ⟨?_, by rfl, by rfl⟩
  intro k1 k2 tsv sgv hk1c hk1e hk2c hk2e htsc htse hsgc hsge htne hsne
  have hseg1 : (',' : Char) ∉ k1.toList ++ '=' :: tsv.toList := by
    simp only [List.mem_append, List.mem_cons, not_or]
    exact ⟨hk1c, by decide, htsc⟩
  have hseg2 : (',' : Char) ∉ k2.toList ++ '=' :: sgv.toList := by
    simp only [List.mem_append, List.mem_cons, not_or]
    exact ⟨hk2c, by decide, hsgc⟩
  have hmain : ∀ (hdr : String) (rest : List (List Char)),
      splitOnChar ',' hdr.toList =
        (k1.toList ++ '=' :: tsv.toList) :: (k2.toList ++ '=' :: sgv.toList) :: rest →
      parseSignatureHeader hdr = some (tsv, sgv) := by
    intro hdr rest hsp
    unfold parseSignatureHeader jsSplitChar
    rw [hsp]
    simp only [List.map_cons, List.getElem?_cons_zero, List.getElem?_cons_succ]
    rw [segValue_keyval k1 tsv hk1e htse, segValue_keyval k2 sgv hk2e hsge]
    dsimp only
    rw [if_neg (by push_neg; exact ⟨htne, hsne⟩)]
  constructor
  · apply hmain _ []
    rw [show (k1 ++ "=" ++ tsv ++ "," ++ k2 ++ "=" ++ sgv).toList =
      (k1.toList ++ '=' :: tsv.toList) ++ ',' :: (k2.toList ++ '=' :: sgv.toList) by
        simp [toList_append]]
    rw [splitOnChar_append _ hseg1, splitOnChar_no_sep hseg2]
  · intro rest
    apply hmain _ (splitOnChar ',' rest.toList)
    rw [show (k1 ++ "=" ++ tsv ++ "," ++ k2 ++ "=" ++ sgv ++ "," ++ rest).toList =
      (k1.toList ++ '=' :: tsv.toList) ++
        ',' :: ((k2.toList ++ '=' :: sgv.toList) ++ ',' :: rest.toList) by
        simp [toList_append]]
    rw [splitOnChar_append _ hseg1, splitOnChar_append _ hseg2]

theorem header_positional_parsing_witness :
    ((',' : Char) ∉ ("foo" : String).toList) ∧ (("123" : String) ≠ "") ∧
    parseSignatureHeader ("foo" ++ "=" ++ "123" ++ "," ++ "bar" ++ "=" ++ "beef") =
      some ("123", "beef") := by
  refine ⟨by decide, by decide, ?_⟩
  exact (header_positional_parsing.1 "foo" "bar" "123" "beef"
    (by decide) (by decide) (by decide) (by decide) (by decide) (by decide)
    (by decide) (by decide) (by decide) (by decide)).1

end MaintainX
